import Mathlib

/-!
# Verification of `rename_histology.py` (faryabiLab/hpapdata-utils)

A shallow embedding of the reconciliation engine of `src/rename_histology.py`:
identity-key extraction, donor-id resolution, stain normalization, anatomy
classification, row/file matching and destination-name allocation.  Python
strings are embedded as `String` (with the relevant `str` methods re-implemented
over `String.data`), Python dicts as insertion-ordered association lists, and
fatal paths (`my_log` + `sys.exit(1)`) as well as uncaught Python exceptions as
an `Except Err` result.
-/

set_option maxRecDepth 10000

/-- A fatal outcome of the script: either one of the script's own
`print`/`my_log` + `sys.exit(1)` error paths (each constructor records the
datum the message reports), or an uncaught Python exception. -/
inductive Err where
  /-- `get_filename_key`: empty or non-HPAP-prefixed key, logged + `sys.exit(1)`. -/
  | invalidFilename : String → Err
  /-- `check_img_filenames` / `check_excel_filenames`: a later item resolved
  to a donor id different from the batch's first one. -/
  | inconsistentDonor : String → Err
  /-- `check_img_filenames` / `read_excel`: two items collapsed to one key. -/
  | duplicateKey : String → Err
  /-- `read_excel` lines 288-294: Excel donor id differs from the images'. -/
  | excelDonorMismatch : Option String → String → Err
  /-- `get_anatomy`: zero, or more than two, keywords found. -/
  | keywordsMismatch : String → Err
  /-- `get_anatomy`: first keyword not a key of `anatomy_dict`. -/
  | key1NotFound : String → Err
  /-- `get_anatomy`: second keyword not in the site's modifier table
  (the `except KeyError` branch). -/
  | key2NotFound : String → Err
  /-- `get_short_anatomy`: fell through every substring test. -/
  | shortAnatomyNoMatch : String → Err
  /-- An uncaught Python `IndexError` (no log message, no clean exit). -/
  | indexError : Err
  /-- An uncaught Python `TypeError` (no log message, no clean exit). -/
  | typeError : Err
deriving DecidableEq, Repr

deriving instance DecidableEq for Except

/-! ## Python string primitives, re-implemented over `List Char` -/

/-- Python `str.isspace` for the characters `str.strip()` removes
(ASCII whitespace: space, tab, newline, carriage return, vertical tab,
form feed). -/
def pyIsSpace (c : Char) : Bool :=
  c = ' ' || c = '\t' || c = '\n' || c = '\r' || c.toNat = 11 || c.toNat = 12

/-- Python `str.strip()`: drop leading and trailing whitespace. -/
def pyStrip (cs : List Char) : List Char :=
  ((cs.dropWhile pyIsSpace).reverse.dropWhile pyIsSpace).reverse

/-- The ASCII lower-to-upper case table. -/
def upperMap : List (Char × Char) :=
  [('a', 'A'), ('b', 'B'), ('c', 'C'), ('d', 'D'), ('e', 'E'), ('f', 'F'),
   ('g', 'G'), ('h', 'H'), ('i', 'I'), ('j', 'J'), ('k', 'K'), ('l', 'L'),
   ('m', 'M'), ('n', 'N'), ('o', 'O'), ('p', 'P'), ('q', 'Q'), ('r', 'R'),
   ('s', 'S'), ('t', 'T'), ('u', 'U'), ('v', 'V'), ('w', 'W'), ('x', 'X'),
   ('y', 'Y'), ('z', 'Z')]

/-- Python `str.upper()` on one ASCII character. -/
def pyToUpper (c : Char) : Char :=
  (List.lookup c upperMap).getD c

/-- Python `str.lower()` on one ASCII character. -/
def pyToLower (c : Char) : Char :=
  (List.lookup c (upperMap.map (fun p => (p.2, p.1)))).getD c

/-- Python `str.zfill(width)`: left-pad with `'0'` to `width`, keeping a
leading sign character in front of the padding. -/
def pyZfill (cs : List Char) (width : Nat) : List Char :=
  if cs.length ≥ width then cs
  else
    match cs with
    | c :: rest =>
      if c = '+' ∨ c = '-' then
        c :: (List.replicate (width - cs.length) '0' ++ rest)
      else List.replicate (width - cs.length) '0' ++ cs
    | [] => List.replicate width '0'

/-- Python `sub in s` (substring containment). -/
def pyContains (cs sub : List Char) : Bool :=
  match cs with
  | [] => sub.isEmpty
  | _ :: rest => sub.isPrefixOf cs || pyContains rest sub

/-- Python `s.startswith(pre)`. -/
def pyStartswith (s pre : String) : Bool :=
  pre.data.isPrefixOf s.data

/-- Auxiliary scanner for `pySplit`; `fuel` bounds the recursion (any value
at least `cs.length` gives Python's `str.split(sep)` behaviour for a
non-empty separator). -/
def pySplitAux (sep : List Char) : Nat → List Char → List Char → List (List Char)
  | 0, cs, acc => [acc.reverse ++ cs]
  | fuel + 1, cs, acc =>
    match cs with
    | [] => [acc.reverse]
    | c :: rest =>
      if sep.isPrefixOf (c :: rest) then
        acc.reverse :: pySplitAux sep fuel ((c :: rest).drop sep.length) []
      else pySplitAux sep fuel rest (c :: acc)

/-- Python `s.split(sep)` for a non-empty separator `sep`. -/
def pySplit (sep cs : List Char) : List (List Char) :=
  if sep.isEmpty then [cs] else pySplitAux sep (cs.length + 1) cs []

/-- Auxiliary scanner for `pyReplace`; `fuel` as in `pySplitAux`. -/
def pyReplaceAux (old new : List Char) : Nat → List Char → List Char
  | 0, cs => cs
  | fuel + 1, cs =>
    match cs with
    | [] => []
    | c :: rest =>
      if old.isPrefixOf (c :: rest) then
        new ++ pyReplaceAux old new fuel ((c :: rest).drop old.length)
      else c :: pyReplaceAux old new fuel rest

/-- Python `s.replace(old, new)` for a non-empty `old`
(left-to-right, non-overlapping). -/
def pyReplace (cs old new : List Char) : List Char :=
  if old.isEmpty then cs else pyReplaceAux old new (cs.length + 1) cs

/-! ## `get_filename_key` (lines 67-86) -/

/-- The character class kept by `get_filename_key`:
`c == '_' or c == '-' or c.isalpha() or c.isdigit()`. -/
def keyChar (c : Char) : Bool :=
  c = '_' || c = '-' || c.isAlpha || c.isDigit

/-- The filtering loop of `get_filename_key` (lines 77-80). -/
def filterKey (s : String) : String :=
  String.mk (s.data.filter keyChar)

/-- Python `input_filename.rsplit('.', 1)[0]`: everything before the last
`'.'`, or the whole string when there is none. -/
def rsplitStem (s : String) : String :=
  match (s.data.reverse.dropWhile (fun c => ¬ c = '.')) with
  | [] => s
  | _ :: rest => String.mk rest.reverse

/-- `get_filename_key(input_filename, rm_extension)` (lines 67-86): strip the
extension when asked, keep only `_`, `-` and alphanumerics, and fatally
reject an empty or non-`HPAP`-prefixed result. -/
def get_filename_key (input_filename : String) (rm_extension : Bool) :
    Except Err String :=
  let name := if rm_extension then rsplitStem input_filename else input_filename
  let filename_key := filterKey name
  if filename_key.data.length = 0 ∨ ¬ pyStartswith filename_key "HPAP" then
    .error (.invalidFilename input_filename)
  else .ok filename_key

/-! ## `get_donor_id` (lines 89-99) -/

/-- `get_donor_id(input_str)` (lines 89-99):
`input_str.split('_', 1)[0].split('HPAP')[1].zfill(3)`.  When the first
underscore-segment does not contain `HPAP`, the `[1]` subscript raises an
uncaught `IndexError` (there is no guard in the source). -/
def get_donor_id (input_str : String) : Except Err String :=
  let hpap_str := input_str.data.takeWhile (fun c => c != '_')
  match (pySplit "HPAP".data hpap_str).get? 1 with
  | none => .error .indexError
  | some num_part => .ok (String.mk (pyZfill num_part 3))

/-! ## `rename_stain` (lines 411-420) -/

/-- `rename_stain(input_str)` (lines 411-420): upper-case and trim, then
`"OCT"` exactly → `OCT-flash-frozen`, substring `"VAN"` → `OCT-lightly-fixed`,
otherwise pass the upper-cased trimmed string through. -/
def rename_stain (input_str : String) : String :=
  let s := String.mk ((pyStrip input_str.data).map pyToUpper)
  if s = "OCT" then "OCT-flash-frozen"
  else if pyContains s.data "VAN".data then "OCT-lightly-fixed"
  else s

/-! ## `get_anatomy` (lines 351-408)

The source runs `re.findall` with six hand-written patterns and keeps only the
FIRST match of each (`x[0]`).  Each pattern is emulated directly: a scan for
the earliest position at which the pattern matches, with the pattern's
greedy optional pieces (`\s?-?\s?`) and its greedy `\w+`/`(\w+)?` group.
For these patterns, consuming the optional whitespace/hyphen greedily is
equivalent to Python's backtracking: `\w` matches neither whitespace nor
`'-'`, so shrinking the optional pieces can never turn a failing `\w+` into
a success, nor change the word the group captures. -/

/-- Python regex `\w` (ASCII): letters, digits and underscore. -/
def isWordChar (c : Char) : Bool :=
  c.isAlpha || c.isDigit || c = '_'

/-- Python regex `\s` (ASCII). -/
def isReSpace (c : Char) : Bool :=
  c = ' ' || c = '\t' || c = '\n' || c = '\r' || c.toNat = 11 || c.toNat = 12

/-- Consume one optional character matching `p` (a greedy `X?`). -/
def skipOpt (p : Char → Bool) (cs : List Char) : List Char :=
  match cs with
  | c :: rest => if p c then rest else c :: rest
  | [] => []

/-- Consume the `\s?-?\s?` junk between a site keyword and its modifier. -/
def skipJunk (cs : List Char) : List Char :=
  skipOpt isReSpace (skipOpt (fun c => c = '-') (skipOpt isReSpace cs))

/-- `(pancreas)\s?-?\s?(\w+)` at the head of `cs`: the groups of the match,
or `none`.  The `(\w+)` group is mandatory. -/
def panAt (cs : List Char) : Option (List String) :=
  if "pancreas".data.isPrefixOf cs then
    let w := (skipJunk (cs.drop 8)).takeWhile isWordChar
    if w.isEmpty then none else some ["pancreas", String.mk w]
  else none

/-- `(LN)\s?-?\s?(\w+)?` at the head of `cs`: the groups of the match
(the second group is `""` when the optional `(\w+)?` is absent). -/
def lnAt (cs : List Char) : Option (List String) :=
  if "LN".data.isPrefixOf cs then
    some ["LN", String.mk ((skipJunk (cs.drop 2)).takeWhile isWordChar)]
  else none

/-- `(duodenum)\s?-?\s?(\w+)?|(duod)\s?(\w+)?` at the head of `cs`: the
4-tuple of groups (alternative 1 fills groups 1-2, alternative 2 groups 3-4;
note alternative 2 has only `\s?` between keyword and modifier). -/
def duoAt (cs : List Char) : Option (List String) :=
  if "duodenum".data.isPrefixOf cs then
    some ["duodenum", String.mk ((skipJunk (cs.drop 8)).takeWhile isWordChar), "", ""]
  else if "duod".data.isPrefixOf cs then
    some ["", "", "duod",
      String.mk ((skipOpt isReSpace (cs.drop 4)).takeWhile isWordChar)]
  else none

/-- First match of a pattern: try it at every position, left to right. -/
def findFirst (f : List Char → Option (List String)) :
    List Char → Option (List String)
  | [] => f []
  | c :: rest =>
    match f (c :: rest) with
    | some gs => some gs
    | none => findFirst f rest

/-- Lines 366-375 applied to one `findall` tuple: keep the non-empty groups,
replacing a literal `'duod'` with `'duodenum'`. -/
def tupleSubFinds (gs : List String) : List String :=
  (gs.filter (fun g => ¬ g = "")).map (fun g => if g = "duod" then "duodenum" else g)

/-- `finds_final` of `get_anatomy` (lines 352-375): the first match of each
of the seven patterns, in the fixed order `[pan, spl, lyn, duo, thy, art,
rand]`, tuples flattened to their non-empty groups.  The single-group
patterns (`spleen`, `thymus`, `artery`, `Mesentery opo`) produce a bare
string, appended as-is; `(thymus)\s?\n?` and `(artery)\s?\n?` match exactly
when the keyword occurs as a substring. -/
def finds_final (value : String) : List String :=
  let cs := value.data
  (match findFirst panAt cs with
   | some gs => tupleSubFinds gs
   | none => [])
  ++ (if pyContains cs "spleen".data then ["spleen"] else [])
  ++ (match findFirst lnAt cs with
      | some gs => tupleSubFinds gs
      | none => [])
  ++ (match findFirst duoAt cs with
      | some gs => tupleSubFinds gs
      | none => [])
  ++ (if pyContains cs "thymus".data then ["thymus"] else [])
  ++ (if pyContains cs "artery".data then ["artery"] else [])
  ++ (if pyContains cs "Mesentery opo".data then ["Mesentery opo"] else [])

/-- A value of `anatomy_dict` (lines 28-55): either a bare long-form string
or a per-site modifier table. -/
inductive AnatomyEntry where
  | leaf : String → AnatomyEntry
  | table : List (String × String) → AnatomyEntry
deriving DecidableEq, Repr

/-- `anatomy_dict` (lines 28-55), as an insertion-ordered association list. -/
def anatomy_dict : List (String × AnatomyEntry) :=
  [("pancreas", .table
     [("unsure", "Pancreas - Unsure of orientation"),
      ("head", "Head of pancreas"),
      ("tail", "Tail of pancreas"),
      ("body", "Body of pancreas")]),
   ("duodenum", .table
     [("unsure", "Duodenum - Unsure of orientation"),
      ("distal", "Duodenum - Distal one third"),
      ("mid", "Duodenum - Mid one third"),
      ("proximal", "Duodenum - Proximal one third"),
      ("prox", "Duodenum - Proximal one third")]),
   ("LN", .table
     [("SMA", "Lymph node - SMA"),
      ("sma", "Lymph node - SMA"),
      ("body", "Lymph node - Body of pancreas"),
      ("head", "Lymph node - Head of pancreas"),
      ("mesentery", "Lymph node - Mesentery"),
      ("mesentary", "Lymph node - Mesentery"),
      ("mestentery", "Lymph node - Mesentery"),
      ("tail", "Lymph node - Tail of pancreas")]),
   ("spleen", .leaf "Spleen"),
   ("thymus", .leaf "Thymus"),
   ("artery", .leaf "Artery")]

/-- `get_anatomy(value)` (lines 351-408).  Exactly one or two keywords must
come out of `finds_final`; the first must be a key of `anatomy_dict`.  With
two keywords the source runs `anatomy_dict[key1][key2]` under
`except KeyError`: a missing modifier is the logged `key #2 not found` exit,
but when `anatomy_dict[key1]` is a bare string (site `spleen`/`thymus`/
`artery`) the subscript raises `TypeError`, which the `except KeyError`
clause does not catch. -/
def get_anatomy (value : String) : Except Err String :=
  match finds_final value with
  | [key1] =>
    match List.lookup key1 anatomy_dict with
    | none => .error (.key1NotFound key1)
    | some entry =>
      if key1 = "pancreas" then .ok "Pancreas"
      else if key1 = "duodenum" then .ok "Duodenum"
      else if key1 = "LN" then .ok "Lymph node"
      else
        match entry with
        | .leaf s => .ok s
        -- Python would return the nested dict object itself here; the branch
        -- is unreachable, since every table-valued key is handled above.
        | .table _ => .ok ""
  | [key1, key2] =>
    match List.lookup key1 anatomy_dict with
    | none => .error (.key1NotFound key1)
    | some (.table m) =>
      match List.lookup key2 m with
      | some v => .ok v
      | none => .error (.key2NotFound key2)
    | some (.leaf _) => .error .typeError
  | _ =>
    -- `num_keywords == 0 or num_keywords > 2` (the two-keyword and
    -- one-keyword shapes are the two arms above)
    .error (.keywordsMismatch value)

/-! ## `get_short_anatomy` (lines 446-471) -/

/-- `get_short_anatomy(input_str)` (lines 446-471): ordered substring tests
on the lower-cased label, fatal when none matches. -/
def get_short_anatomy (input_str : String) : Except Err String :=
  let anatomy_lower := (input_str.data.map pyToLower)
  if pyContains anatomy_lower "artery".data then .ok "Artery"
  else if pyContains anatomy_lower "bone marrow".data then .ok "Bone Marrow"
  else if pyContains anatomy_lower "duodenum".data then .ok "Duodenum"
  else if pyContains anatomy_lower "lymph node".data then .ok "Lymph node"
  else if pyContains anatomy_lower "pancreas".data then .ok "Pancreas"
  else if pyContains anatomy_lower "spleen".data then .ok "Spleen"
  else if pyContains anatomy_lower "thymus".data then .ok "Thymus"
  else .error (.shortAnatomyNoMatch input_str)

/-! ## `check_img_filenames` (lines 102-128) -/

/-- The loop body of `check_img_filenames`, one image filename at a time.
State: `donor_id` (None until the first file fixes it) and `fn_map`
(the insertion-ordered dict key → filename).  Per file: extract the key,
resolve its donor, compare with the established donor (lines 116-120),
then reject duplicate keys (lines 122-124), then insert. -/
def check_img_filenames_go (fns : List String) (donor_id : Option String)
    (fn_map : List (String × String)) :
    Except Err (Option String × List (String × String)) :=
  match fns with
  | [] => .ok (donor_id, fn_map)
  | fn :: rest =>
    match get_filename_key fn true with
    | .error e => .error e
    | .ok fn_key =>
      match get_donor_id fn_key with
      | .error e => .error e
      | .ok current_donor_id =>
        match donor_id with
        | none =>
          if (List.lookup fn_key fn_map).isSome then .error (.duplicateKey fn)
          else
            check_img_filenames_go rest (some current_donor_id)
              (fn_map ++ [(fn_key, fn)])
        | some d =>
          if ¬ d = current_donor_id then .error (.inconsistentDonor fn)
          else if (List.lookup fn_key fn_map).isSome then
            .error (.duplicateKey fn)
          else check_img_filenames_go rest (some d) (fn_map ++ [(fn_key, fn)])

/-- `check_img_filenames(filenames)` (lines 102-128). -/
def check_img_filenames (filenames : List String) :
    Except Err (Option String × List (String × String)) :=
  check_img_filenames_go filenames none []

/-! ## `check_excel_filenames` (lines 187-203) and the donor cross-check of
`read_excel` (lines 288-294) -/

/-- The loop of `check_excel_filenames`: `rows` is the insertion-ordered
dict of `read_excel`, each entry a row key paired with the row's raw
`filename_stem` cell (the value the error message reports). -/
def check_excel_filenames_go (rows : List (String × String))
    (donor_id : Option String) : Except Err (Option String) :=
  match rows with
  | [] => .ok donor_id
  | (r, v) :: rest =>
    match get_donor_id r with
    | .error e => .error e
    | .ok current_donor_id =>
      match donor_id with
      | none => check_excel_filenames_go rest (some current_donor_id)
      | some d =>
        if ¬ d = current_donor_id then .error (.inconsistentDonor v)
        else check_excel_filenames_go rest (some d)

/-- `check_excel_filenames(rows, excel_filename)` (lines 187-203). -/
def check_excel_filenames (rows : List (String × String)) :
    Except Err (Option String) :=
  check_excel_filenames_go rows none

/-- Lines 288-294 of `read_excel`: resolve the Excel-side donor id and
fatally reject it when it differs from the image files' `donor_id`. -/
def read_excel_donor_check (rows : List (String × String))
    (donor_id : String) : Except Err (Option String) :=
  match check_excel_filenames rows with
  | .error e => .error e
  | .ok excel_donor_id =>
    if ¬ excel_donor_id = some donor_id then
      .error (.excelDonorMismatch excel_donor_id donor_id)
    else .ok excel_donor_id

/-! ## `match_excel_to_images` (lines 299-348) -/

/-- One spreadsheet row as `read_excel` builds it: the raw `filename_stem`
cell and the raw `stain` cell. -/
structure ExcelRow where
  filename_stem : String
  stain : String
deriving DecidableEq, Repr

/-- `match_excel_to_images(excel_dict, img_dict)` (lines 299-348).  The
source's membership tests are `if ik not in excel_dict():` and
`if xk not in img_dict():` — both CALL the dict objects, so the first
iteration of either loop raises an uncaught `TypeError`; the `return
src2dest` statement sits inside the second loop, so when both dicts are
empty the function falls through and returns `None`. -/
def match_excel_to_images (excel_dict : List (String × ExcelRow))
    (img_dict : List (String × String)) :
    Except Err (Option (List (String × String × String))) :=
  match img_dict with
  | _ :: _ =>
    -- first loop, first iteration: `excel_dict()` raises TypeError
    .error .typeError
  | [] =>
    match excel_dict with
    | _ :: _ =>
      -- second loop, first iteration: `img_dict()` raises TypeError
      .error .typeError
    | [] => .ok none

/-! ## The destination allocator: `get_unique_num` (lines 474-494) and the
sort / naming block of `map_src_to_dest` (lines 553-576)

`clean_histology.sort_values(['anatomy', 'renamed_stain', 'img_id'])` orders
string columns lexicographically by code point; `lexLt` below is strict
lexicographic order over lists, instantiated at `Char` (one string) and then
at `List Char` (the column triple, as an equal-length list of columns). -/

/-- Strict lexicographic order on lists, given a strict order on elements. -/
def lexLt {α : Type} [DecidableEq α] (lt : α → α → Bool) :
    List α → List α → Bool
  | [], [] => false
  | [], _ :: _ => true
  | _ :: _, [] => false
  | a :: as, b :: bs => if lt a b then true else if a = b then lexLt lt as bs else false

/-- Strict order on `Char` by code point (Python string comparison). -/
def charLt (a b : Char) : Bool := decide (a < b)

/-- The sort key of lines 559-561: the `anatomy`, `renamed_stain` and
`img_id` columns of one row, as a list of char-columns. -/
structure HistRecord where
  donor : String
  anatomy : String
  renamed_stain : String
  img_id : String
  filepath : String
  short_anatomy : String
deriving DecidableEq, Repr

def sortKey (r : HistRecord) : List (List Char) :=
  [r.anatomy.data, r.renamed_stain.data, r.img_id.data]

/-- `sort_values(['anatomy', 'renamed_stain', 'img_id'])` as a (non-strict)
relation on rows. -/
def recLe (a b : HistRecord) : Prop :=
  lexLt (lexLt charLt) (sortKey a) (sortKey b) = true ∨ sortKey a = sortKey b

instance : DecidableRel recLe := fun _ _ =>
  inferInstanceAs (Decidable (_ ∨ _))

/-- The final `sort_values(['filepath'])` of lines 572-574, on the output
triples `(filepath, short_anatomy, dest_name)`. -/
def outLe (a b : String × String × String) : Prop :=
  lexLt charLt a.1.data b.1.data = true ∨ a.1 = b.1

instance : DecidableRel outLe := fun _ _ =>
  inferInstanceAs (Decidable (_ ∨ _))

/-- `.str.replace(" ", "-").str.replace("---", "-")` (line 555, also
line 325): the hyphenation applied to the anatomy long form before it is
embedded in the destination name. -/
def hyphenate (s : String) : String :=
  String.mk (pyReplace (pyReplace s.data " ".data "-".data) "---".data "-".data)

/-- The `dest_name` column before the unique suffix (lines 553-557):
`donor + "_Histology_" + hyphenated anatomy + "_" + renamed_stain +
"_H-and-E"`. -/
def destBase (r : HistRecord) : String :=
  r.donor ++ "_Histology_" ++ hyphenate r.anatomy ++ "_" ++ r.renamed_stain
    ++ "_H-and-E"

/-- The module-level `unique_dict` (line 26): a nested dict
donor → anatomy → stain → counter, embedded as an association list keyed by
the `(donor, anatomy, stain)` triple. -/
def UniqueDict : Type := List ((String × String × String) × Nat)

/-- Store a counter value, keeping insertion order (`d[k] = n`). -/
def setCounter : UniqueDict → (String × String × String) → Nat → UniqueDict
  | [], k, n => [(k, n)]
  | (k0, v0) :: rest, k, n =>
    if k0 = k then (k, n) :: rest else (k0, v0) :: setCounter rest k n

/-- `get_unique_num(input_str)` (lines 474-494): split the destination base
name on `'_'`, key the counter on `(tokens[0], tokens[2], tokens[3])` =
(donor, anatomy, stain), initialize to 1 and increment per call.  (Names
built by lines 553-557 always contain at least four underscores, so the
subscripts never raise.)  Returns the assigned number and the updated
`unique_dict`. -/
def get_unique_num (input_str : String) (unique_dict : UniqueDict) :
    Nat × UniqueDict :=
  let tokens := pySplit "_".data input_str.data
  let donor := String.mk (tokens.getD 0 [])
  let anatomy := String.mk (tokens.getD 2 [])
  let stain := String.mk (tokens.getD 3 [])
  let key := (donor, anatomy, stain)
  match List.lookup key unique_dict with
  | none => (1, setCounter unique_dict key 1)
  | some n => (n + 1, setCounter unique_dict key (n + 1))

/-- `clean_histology['unique_num'] = clean_histology['dest_name'].apply(
get_unique_num)` (lines 563-565), over the sorted rows in order. -/
def assignNums : List HistRecord → UniqueDict → List (HistRecord × Nat)
  | [], _ => []
  | r :: rest, ud =>
    let p := get_unique_num (destBase r) ud
    (r, p.1) :: assignNums rest p.2

/-- Lines 553-576 of `map_src_to_dest`, from a matched-record table to the
`(filepath, short_anatomy, dest_name)` triples: build the base names, sort
by `(anatomy, renamed_stain, img_id)`, assign the per-group unique suffixes
in that order starting from a fresh `unique_dict`, append the suffix and
the `.ndpi` extension, and finally sort the output by `filepath`. -/
def map_src_to_dest_alloc (records : List HistRecord) :
    List (String × String × String) :=
  let sorted := List.insertionSort recLe records
  let numbered := assignNums sorted []
  let out := numbered.map (fun p =>
    (p.1.filepath, p.1.short_anatomy,
     destBase p.1 ++ "_" ++ toString p.2 ++ ".ndpi"))
  List.insertionSort outLe out

/-! ## Order lemmas for the allocator's sort -/

section LexOrder

variable {α : Type} [DecidableEq α] (lt : α → α → Bool)

theorem lexLt_irrefl (h : ∀ a, lt a a = false) :
    ∀ as, lexLt lt as as = false
  | [] => rfl
  | a :: as => by simp [lexLt, h a, lexLt_irrefl h as]

theorem lexLt_trans (htr : ∀ a b c, lt a b = true → lt b c = true → lt a c = true) :
    ∀ {as bs cs : List α}, lexLt lt as bs = true → lexLt lt bs cs = true →
      lexLt lt as cs = true := by
  intro as
  induction as with
  | nil =>
    intro bs cs h1 h2
    cases bs with
    | nil => simp [lexLt] at h1
    | cons b bs =>
      cases cs with
      | nil => simp [lexLt] at h2
      | cons c cs => simp [lexLt]
  | cons a as ih =>
    intro bs cs h1 h2
    cases bs with
    | nil => simp [lexLt] at h1
    | cons b bs =>
      cases cs with
      | nil => simp [lexLt] at h2
      | cons c cs =>
        simp only [lexLt] at h1 h2 ⊢
        by_cases hab : lt a b = true
        · by_cases hbc : lt b c = true
          · simp [htr a b c hab hbc]
          · simp [hbc] at h2
            rcases h2 with ⟨hbeq, _⟩
            simp [hbeq ▸ hab]
        · simp [hab] at h1
          rcases h1 with ⟨habeq, h1⟩
          subst habeq
          by_cases hbc : lt a c = true
          · simp [hbc]
          · simp [hbc] at h2 ⊢
            rcases h2 with ⟨hbceq, h2⟩
            subst hbceq
            exact ⟨rfl, ih h1 h2⟩

theorem lexLt_tricho (htri : ∀ a b, lt a b = true ∨ a = b ∨ lt b a = true) :
    ∀ as bs : List α, lexLt lt as bs = true ∨ as = bs ∨ lexLt lt bs as = true := by
  intro as
  induction as with
  | nil =>
    intro bs
    cases bs with
    | nil => right; left; rfl
    | cons b bs => left; simp [lexLt]
  | cons a as ih =>
    intro bs
    cases bs with
    | nil => right; right; simp [lexLt]
    | cons b bs =>
      rcases htri a b with hab | hab | hab
      · left; simp [lexLt, hab]
      · subst hab
        rcases ih bs with h | h | h
        · left; simp only [lexLt]
          by_cases haa : lt a a = true
          · simp [haa]
          · simp [haa, h]
        · right; left; rw [h]
        · right; right; simp only [lexLt]
          by_cases haa : lt a a = true
          · simp [haa]
          · simp [haa, h]
      · right; right; simp only [lexLt]
        by_cases hba : b = a
        · subst hba; simp [hab]
        · simp [hab]

end LexOrder

theorem charLt_irrefl (a : Char) : charLt a a = false := by
  simp [charLt]

theorem charLt_trans (a b c : Char) (h1 : charLt a b = true)
    (h2 : charLt b c = true) : charLt a c = true := by
  simp only [charLt, decide_eq_true_eq] at h1 h2 ⊢
  exact lt_trans h1 h2

theorem charLt_tricho (a b : Char) :
    charLt a b = true ∨ a = b ∨ charLt b a = true := by
  simp only [charLt, decide_eq_true_eq]
  exact lt_trichotomy a b

theorem lineLt_irrefl (as : List Char) : lexLt charLt as as = false :=
  lexLt_irrefl charLt charLt_irrefl as

theorem lineLt_trans {as bs cs : List Char} (h1 : lexLt charLt as bs = true)
    (h2 : lexLt charLt bs cs = true) : lexLt charLt as cs = true :=
  lexLt_trans charLt charLt_trans h1 h2

theorem lineLt_tricho (as bs : List Char) :
    lexLt charLt as bs = true ∨ as = bs ∨ lexLt charLt bs as = true :=
  lexLt_tricho charLt charLt_tricho as bs

/-- The strict column-triple order underneath `recLe`. -/
theorem keyLt_trans {x y z : List (List Char)}
    (h1 : lexLt (lexLt charLt) x y = true) (h2 : lexLt (lexLt charLt) y z = true) :
    lexLt (lexLt charLt) x z = true :=
  lexLt_trans (lexLt charLt) (fun _ _ _ h1 h2 => lineLt_trans h1 h2) h1 h2

theorem keyLt_irrefl (x : List (List Char)) : lexLt (lexLt charLt) x x = false :=
  lexLt_irrefl (lexLt charLt) lineLt_irrefl x

theorem keyLt_tricho (x y : List (List Char)) :
    lexLt (lexLt charLt) x y = true ∨ x = y ∨ lexLt (lexLt charLt) y x = true :=
  lexLt_tricho (lexLt charLt) lineLt_tricho x y

theorem keyLt_asymm {x y : List (List Char)}
    (h1 : lexLt (lexLt charLt) x y = true) (h2 : lexLt (lexLt charLt) y x = true) :
    False := by
  have := keyLt_trans h1 h2
  rw [keyLt_irrefl x] at this
  exact Bool.false_ne_true this

instance : IsTotal HistRecord recLe :=
  ⟨fun a b => by
    rcases keyLt_tricho (sortKey a) (sortKey b) with h | h | h
    · exact Or.inl (Or.inl h)
    · exact Or.inl (Or.inr h)
    · exact Or.inr (Or.inl h)⟩

instance : IsTrans HistRecord recLe :=
  ⟨fun a b c h1 h2 => by
    rcases h1 with h1 | h1 <;> rcases h2 with h2 | h2
    · exact Or.inl (keyLt_trans h1 h2)
    · exact Or.inl (h2 ▸ h1)
    · exact Or.inl (h1 ▸ h2)
    · exact Or.inr (h1.trans h2)⟩

/-- `recLe` together with distinct sort keys: the strict version of the
allocator's sort order, antisymmetric by construction. -/
def recLt (a b : HistRecord) : Prop :=
  recLe a b ∧ ¬ sortKey a = sortKey b

instance : IsAntisymm HistRecord recLt :=
  ⟨fun a b h1 h2 => by
    rcases h1 with ⟨h1le, h1ne⟩
    rcases h2 with ⟨h2le, _⟩
    rcases h1le with h1lt | h1eq
    · rcases h2le with h2lt | h2eq
      · exact absurd (keyLt_asymm h1lt h2lt) (fun h => h)
      · exact absurd h2eq.symm h1ne
    · exact absurd h1eq h1ne⟩

/-- Two lists of records that are permutations of each other and have
pairwise-distinct sort keys produce the same `insertionSort` output. -/
theorem insertionSort_eq_of_perm {l1 l2 : List HistRecord}
    (hp : l1.Perm l2)
    (hpw : l1.Pairwise (fun a b => ¬ sortKey a = sortKey b)) :
    List.insertionSort recLe l1 = List.insertionSort recLe l2 := by
  have hsymm : ∀ {x y : HistRecord}, ¬ sortKey x = sortKey y →
      ¬ sortKey y = sortKey x := fun h e => h e.symm
  have hperm : (List.insertionSort recLe l1).Perm (List.insertionSort recLe l2) :=
    (List.perm_insertionSort recLe l1).trans
      (hp.trans (List.perm_insertionSort recLe l2).symm)
  have hpw1 : (List.insertionSort recLe l1).Pairwise
      (fun a b => ¬ sortKey a = sortKey b) :=
    ((List.perm_insertionSort recLe l1).pairwise_iff hsymm).2 hpw
  have hpw2 : (List.insertionSort recLe l2).Pairwise
      (fun a b => ¬ sortKey a = sortKey b) :=
    ((List.perm_insertionSort recLe l2).pairwise_iff hsymm).2
      ((hp.pairwise_iff hsymm).1 hpw)
  have hs1 : (List.insertionSort recLe l1).Sorted recLt :=
    (List.sorted_insertionSort recLe l1).and hpw1
  have hs2 : (List.insertionSort recLe l2).Sorted recLt :=
    (List.sorted_insertionSort recLe l2).and hpw2
  exact List.eq_of_perm_of_sorted hperm hs1 hs2

/-! ## The spec's loose extraction mode -/

/-- Modelled from the spec: the `loose` extraction mode of the KeyExtractor
(§4.1: digits and `_` only, used for filename-vs-row-id matching), which is
not present in `src/rename_histology.py` — the file only contains the strict
`get_filename_key`.  Per §4.1, loose extraction fails only when the filtered
result is empty (the donor-prefix requirement applies to strict mode). -/
def get_filename_key_loose (input_filename : String) : Except Err String :=
  let key := String.mk (input_filename.data.filter (fun c => c = '_' || c.isDigit))
  if key.data.length = 0 then .error (.invalidFilename input_filename)
  else .ok key

/-! ## Helper views of extraction results -/

/-- The key a filename extracts to, when extraction succeeds (`""` otherwise). -/
def fileKey (fn : String) : String :=
  ((get_filename_key fn true).toOption).getD ""

/-- The donor id a filename resolves to through its key (`""` on failure). -/
def fileDonor (fn : String) : String :=
  (((get_filename_key fn true).toOption).bind
    (fun k => (get_donor_id k).toOption)).getD ""

/-- The image filename extracts a key and that key resolves a donor id. -/
def imgValid (fn : String) : Prop :=
  (get_filename_key fn true).isOk = true ∧
    (get_donor_id (fileKey fn)).isOk = true

/-- The donor id a keyed Excel row resolves to (`""` on failure). -/
def rowDonor (p : String × String) : String :=
  ((get_donor_id p.1).toOption).getD ""

/-! ## Facts about `get_filename_key` -/

theorem get_filename_key_ok (s : String) (b : Bool) (k : String)
    (h : get_filename_key s b = .ok k) :
    k = filterKey (if b then rsplitStem s else s) ∧
      ¬ k.data.length = 0 ∧ pyStartswith k "HPAP" = true := by
  simp only [get_filename_key] at h
  by_cases hcond : (filterKey (if b then rsplitStem s else s)).data.length = 0 ∨
      ¬ pyStartswith (filterKey (if b then rsplitStem s else s)) "HPAP" = true
  · rw [if_pos hcond] at h
    exact absurd h (by simp)
  · rw [if_neg hcond] at h
    push_neg at hcond
    have hk : filterKey (if b then rsplitStem s else s) = k := Except.ok.inj h
    refine ⟨hk.symm, ?_, ?_⟩
    · rw [← hk]; exact hcond.1
    · rw [← hk]; exact hcond.2

theorem get_filename_key_error (s : String) (b : Bool)
    (h : filterKey (if b then rsplitStem s else s) = "" ∨
      ¬ pyStartswith (filterKey (if b then rsplitStem s else s)) "HPAP" = true) :
    get_filename_key s b = .error (.invalidFilename s) := by
  simp only [get_filename_key]
  have hcond : (filterKey (if b then rsplitStem s else s)).data.length = 0 ∨
      ¬ pyStartswith (filterKey (if b then rsplitStem s else s)) "HPAP" = true := by
    rcases h with h | h
    · left; rw [h]; rfl
    · right; exact h
  rw [if_pos hcond]

theorem fileKey_eq (fn k : String) (h : get_filename_key fn true = .ok k) :
    fileKey fn = k := by
  simp [fileKey, h, Except.toOption]

theorem fileDonor_eq (fn k d : String) (hk : get_filename_key fn true = .ok k)
    (hd : get_donor_id k = .ok d) : fileDonor fn = d := by
  simp [fileDonor, hk, hd, Except.toOption]

theorem rowDonor_eq (p : String × String) (d : String)
    (hd : get_donor_id p.1 = .ok d) : rowDonor p = d := by
  simp [rowDonor, hd, Except.toOption]

/-- A filtered key only holds characters of the permitted class. -/
theorem filterKey_class (s : String) : ∀ c ∈ (filterKey s).data, keyChar c = true := by
  intro c hc
  exact (List.mem_filter.1 hc).2

/-- Filtering an already-filtered string changes nothing. -/
theorem filterKey_idem (s : String) : filterKey (filterKey s) = filterKey s := by
  unfold filterKey
  congr 1
  exact List.filter_eq_self.2 (fun c hc => (List.mem_filter.1 hc).2)

/-- `rsplit('.', 1)[0]` keeps a dot-free string unchanged. -/
theorem rsplitStem_no_dot (s : String) (h : ∀ c ∈ s.data, ¬ c = '.') :
    rsplitStem s = s := by
  unfold rsplitStem
  have : s.data.reverse.dropWhile (fun c => ¬ c = '.') = [] :=
    List.dropWhile_eq_nil_iff.2 (fun c hc => by
      simpa using h c (List.mem_reverse.1 hc))
  rw [this]

/-- A key that came out of `get_filename_key` contains no `'.'`. -/
theorem get_filename_key_ok_no_dot (s : String) (b : Bool) (k : String)
    (h : get_filename_key s b = .ok k) : ∀ c ∈ k.data, ¬ c = '.' := by
  obtain ⟨hk, -, -⟩ := get_filename_key_ok s b k h
  intro c hc hdot
  subst hdot
  have := hk ▸ hc
  have hclass := filterKey_class _ _ this
  simp [keyChar] at hclass

/-- Strict extraction is idempotent: a key that already came out of
`get_filename_key` passes through unchanged (under either extension mode,
since an extracted key cannot contain `'.'`). -/
theorem get_filename_key_idem (s : String) (b b2 : Bool) (k : String)
    (h : get_filename_key s b = .ok k) : get_filename_key k b2 = .ok k := by
  obtain ⟨hk, hlen, hpre⟩ := get_filename_key_ok s b k h
  have hstem : rsplitStem k = k :=
    rsplitStem_no_dot k (get_filename_key_ok_no_dot s b k h)
  have hfilter : filterKey k = k := by
    rw [hk]; exact filterKey_idem _
  simp only [get_filename_key]
  have hname : (if b2 then rsplitStem k else k) = k := by
    cases b2 <;> simp [hstem]
  rw [hname, hfilter, if_neg]
  rintro (hbad | hbad)
  · exact hlen hbad
  · exact hbad hpre

theorem get_filename_key_loose_ok (s k : String)
    (h : get_filename_key_loose s = .ok k) :
    k = String.mk (s.data.filter (fun c => c = '_' || c.isDigit)) ∧
      ¬ k.data.length = 0 := by
  simp only [get_filename_key_loose] at h
  by_cases hcond : (String.mk (s.data.filter (fun c => c = '_' || c.isDigit))).data.length = 0
  · rw [if_pos hcond] at h
    exact absurd h (by simp)
  · rw [if_neg hcond] at h
    have hk := Except.ok.inj h
    exact ⟨hk.symm, hk ▸ hcond⟩

theorem get_filename_key_loose_idem (s k : String)
    (h : get_filename_key_loose s = .ok k) : get_filename_key_loose k = .ok k := by
  obtain ⟨hk, hlen⟩ := get_filename_key_loose_ok s k h
  have hfilter : k.data.filter (fun c => c = '_' || c.isDigit) = k.data := by
    rw [hk]
    exact List.filter_eq_self.2 (fun c hc => (List.mem_filter.1 hc).2)
  have hks : String.mk (k.data.filter (fun c => c = '_' || c.isDigit)) = k :=
    String.ext hfilter
  show (if (String.mk (k.data.filter (fun c => c = '_' || c.isDigit))).data.length = 0
      then Except.error (Err.invalidFilename k)
      else Except.ok (String.mk (k.data.filter (fun c => c = '_' || c.isDigit)))) = .ok k
  rw [hks, if_neg hlen]

/-! ## Inductive facts about `check_img_filenames` -/

theorem isOk_exists {α : Type} {e : Except Err α} (h : e.isOk = true) :
    ∃ a, e = .ok a := by
  cases e with
  | error e => simp [Except.isOk, Except.toBool] at h
  | ok a => exact ⟨a, rfl⟩

theorem lookup_append_single (fm : List (String × String)) (a k v : String)
    (h1 : List.lookup a fm = none) (h2 : ¬ a = k) :
    List.lookup a (fm ++ [(k, v)]) = none := by
  induction fm with
  | nil =>
    have hf : (a == k) = false := beq_eq_false_iff_ne.2 h2
    simp [List.lookup, hf]
  | cons p rest ih =>
    obtain ⟨pk, pv⟩ := p
    simp only [List.lookup, List.cons_append] at h1 ⊢
    by_cases hab : (a == pk) = true
    · rw [hab] at h1
      exact absurd h1 (by simp)
    · have hf : (a == pk) = false := by simpa using hab
      rw [hf] at h1 ⊢
      exact ih h1

/-- Once the reference donor is fixed, a successful scan returns it. -/
theorem img_go_donor_stable :
    ∀ (fns : List String) (fm : List (String × String)) (d0 : String)
      (d : Option String) (m : List (String × String)),
      check_img_filenames_go fns (some d0) fm = .ok (d, m) → d = some d0 := by
  intro fns
  induction fns with
  | nil =>
    intro fm d0 d m h
    simp only [check_img_filenames_go] at h
    exact (Prod.ext_iff.1 (Except.ok.inj h)).1.symm
  | cons fn rest ih =>
    intro fm d0 d m h
    simp only [check_img_filenames_go] at h
    split at h
    · exact absurd h (by simp)
    · split at h
      · exact absurd h (by simp)
      · split at h
        · exact absurd h (by simp)
        · split at h
          · exact absurd h (by simp)
          · exact ih _ _ _ _ h

/-- A successful scan resolved every file, and every file's donor id is the
returned one. -/
theorem img_go_ok_donors :
    ∀ (fns : List String) (donor : Option String) (fm : List (String × String))
      (d : Option String) (m : List (String × String)),
      check_img_filenames_go fns donor fm = .ok (d, m) →
      ∀ fn ∈ fns, ∃ k dn, get_filename_key fn true = .ok k ∧
        get_donor_id k = .ok dn ∧ d = some dn := by
  intro fns
  induction fns with
  | nil =>
    intro donor fm d m h fn hfn
    exact absurd hfn (List.not_mem_nil fn)
  | cons fn0 rest ih =>
    intro donor fm d m h fn hfn
    simp only [check_img_filenames_go] at h
    split at h
    · exact absurd h (by simp)
    · next fn_key hfk =>
      split at h
      · exact absurd h (by simp)
      · next cd hcd =>
        split at h
        · -- donor = none
          split at h
          · exact absurd h (by simp)
          · rcases List.mem_cons.1 hfn with rfl | hfn'
            · exact ⟨fn_key, cd, hfk, hcd, img_go_donor_stable _ _ _ _ _ h⟩
            · exact ih _ _ _ _ h fn hfn'
        · -- donor = some d
          next d1 =>
          split at h
          · exact absurd h (by simp)
          · next hne =>
            split at h
            · exact absurd h (by simp)
            · rcases List.mem_cons.1 hfn with rfl | hfn'
              · have hd1 : d1 = cd := not_not.1 hne
                exact ⟨fn_key, cd, hfk, hcd,
                  (img_go_donor_stable _ _ _ _ _ h).trans (by rw [hd1])⟩
              · exact ih _ _ _ _ h fn hfn'

/-- Under valid, duplicate-free inputs, the scan either succeeds or stops
with the inconsistent-donor error (no other failure can fire). -/
theorem img_go_shape :
    ∀ (fns : List String) (donor : Option String) (fm : List (String × String)),
      (∀ fn ∈ fns, imgValid fn) →
      (fns.map fileKey).Nodup →
      (∀ fn ∈ fns, List.lookup (fileKey fn) fm = none) →
      (∃ p, check_img_filenames_go fns donor fm = .ok p) ∨
        ∃ fn, check_img_filenames_go fns donor fm =
          .error (.inconsistentDonor fn) := by
  intro fns
  induction fns with
  | nil =>
    intro donor fm _ _ _
    exact Or.inl ⟨(donor, fm), rfl⟩
  | cons fn0 rest ih =>
    intro donor fm hv hnd hdisj
    obtain ⟨k, hfk⟩ := isOk_exists (hv fn0 (List.mem_cons_self fn0 rest)).1
    have hkey : fileKey fn0 = k := fileKey_eq fn0 k hfk
    obtain ⟨cd, hcd⟩ := isOk_exists (hv fn0 (List.mem_cons_self fn0 rest)).2
    rw [hkey] at hcd
    have hdup : List.lookup k fm = none := by
      rw [← hkey]; exact hdisj fn0 (List.mem_cons_self fn0 rest)
    have hnd0 : ∀ fn ∈ rest, ¬ fileKey fn = k := by
      intro fn hfn he
      have := (List.pairwise_cons.1 hnd).1 (fileKey fn)
        (List.mem_map_of_mem fileKey hfn)
      rw [hkey] at this
      exact this he.symm
    have hrest : ∀ fm2 : List (String × String),
        (∀ fn ∈ rest, List.lookup (fileKey fn) fm2 = none) →
        (∃ p, check_img_filenames_go rest (some cd) fm2 = .ok p) ∨
          ∃ fn, check_img_filenames_go rest (some cd) fm2 =
            .error (.inconsistentDonor fn) := by
      intro fm2 hdisj2
      exact ih (some cd) fm2 (fun fn hfn => hv fn (List.mem_cons_of_mem fn0 hfn))
        ((List.nodup_cons.1 hnd).2) hdisj2
    have hdisj' : ∀ fn ∈ rest,
        List.lookup (fileKey fn) (fm ++ [(k, fn0)]) = none := by
      intro fn hfn
      exact lookup_append_single fm (fileKey fn) k fn0
        (hdisj fn (List.mem_cons_of_mem fn0 hfn)) (hnd0 fn hfn)
    cases donor with
    | none =>
      have hstep : check_img_filenames_go (fn0 :: rest) none fm =
          check_img_filenames_go rest (some cd) (fm ++ [(k, fn0)]) := by
        simp [check_img_filenames_go, hfk, hcd, hdup]
      rw [hstep]
      exact hrest _ hdisj'
    | some d0 =>
      by_cases hne : d0 = cd
      · subst hne
        have hstep : check_img_filenames_go (fn0 :: rest) (some d0) fm =
            check_img_filenames_go rest (some d0) (fm ++ [(k, fn0)]) := by
          simp [check_img_filenames_go, hfk, hcd, hdup]
        rw [hstep]
        exact hrest _ hdisj'
      · right
        refine ⟨fn0, ?_⟩
        simp [check_img_filenames_go, hfk, hcd, hne]

/-- Every entry a successful scan adds to `fn_map` carries a non-empty,
`HPAP`-prefixed key. -/
theorem img_go_map_keys :
    ∀ (fns : List String) (donor : Option String) (fm : List (String × String))
      (d : Option String) (m : List (String × String)),
      check_img_filenames_go fns donor fm = .ok (d, m) →
      (∀ p ∈ fm, ¬ p.1 = "" ∧ pyStartswith p.1 "HPAP" = true) →
      ∀ p ∈ m, ¬ p.1 = "" ∧ pyStartswith p.1 "HPAP" = true := by
  intro fns
  induction fns with
  | nil =>
    intro donor fm d m h hfm
    have : fm = m := (Prod.ext_iff.1 (Except.ok.inj h)).2
    exact this ▸ hfm
  | cons fn0 rest ih =>
    intro donor fm d m h hfm
    simp only [check_img_filenames_go] at h
    split at h
    · exact absurd h (by simp)
    · next fn_key hfk =>
      have hgood : ¬ fn_key = "" ∧ pyStartswith fn_key "HPAP" = true := by
        obtain ⟨-, hlen, hpre⟩ := get_filename_key_ok fn0 true fn_key hfk
        refine ⟨fun he => hlen (by rw [he]; rfl), hpre⟩
      have hfm' : ∀ p ∈ fm ++ [(fn_key, fn0)],
          ¬ p.1 = "" ∧ pyStartswith p.1 "HPAP" = true := by
        intro p hp
        rcases List.mem_append.1 hp with hp | hp
        · exact hfm p hp
        · rcases List.mem_singleton.1 hp with rfl
          exact hgood
      split at h
      · exact absurd h (by simp)
      · split at h
        · split at h
          · exact absurd h (by simp)
          · exact ih _ _ _ _ h hfm'
        · split at h
          · exact absurd h (by simp)
          · split at h
            · exact absurd h (by simp)
            · exact ih _ _ _ _ h hfm'

/-! ## Inductive facts about `check_excel_filenames` -/

theorem excel_go_donor_stable :
    ∀ (rows : List (String × String)) (d0 : String) (d : Option String),
      check_excel_filenames_go rows (some d0) = .ok d → d = some d0 := by
  intro rows
  induction rows with
  | nil =>
    intro d0 d h
    exact (Except.ok.inj h).symm
  | cons p rest ih =>
    intro d0 d h
    obtain ⟨r, v⟩ := p
    simp only [check_excel_filenames_go] at h
    split at h
    · exact absurd h (by simp)
    · split at h
      · exact absurd h (by simp)
      · exact ih _ _ h

theorem excel_go_ok_donors :
    ∀ (rows : List (String × String)) (donor : Option String) (d : Option String),
      check_excel_filenames_go rows donor = .ok d →
      ∀ p ∈ rows, ∃ dn, get_donor_id p.1 = .ok dn ∧ d = some dn := by
  intro rows
  induction rows with
  | nil =>
    intro donor d h p hp
    exact absurd hp (List.not_mem_nil p)
  | cons p0 rest ih =>
    intro donor d h p hp
    obtain ⟨r, v⟩ := p0
    simp only [check_excel_filenames_go] at h
    split at h
    · exact absurd h (by simp)
    · next cd hcd =>
      split at h
      · -- donor = none
        rcases List.mem_cons.1 hp with rfl | hp'
        · exact ⟨cd, hcd, excel_go_donor_stable _ _ _ h⟩
        · exact ih _ _ h p hp'
      · -- donor = some d1
        next d1 =>
        split at h
        · exact absurd h (by simp)
        · next hne =>
          rcases List.mem_cons.1 hp with rfl | hp'
          · have hd1 : d1 = cd := not_not.1 hne
            exact ⟨cd, hcd, (excel_go_donor_stable _ _ _ h).trans (by rw [hd1])⟩
          · exact ih _ _ h p hp'

theorem excel_go_shape :
    ∀ (rows : List (String × String)) (donor : Option String),
      (∀ p ∈ rows, (get_donor_id p.1).isOk = true) →
      (∃ d, check_excel_filenames_go rows donor = .ok d) ∨
        ∃ v, check_excel_filenames_go rows donor =
          .error (.inconsistentDonor v) := by
  intro rows
  induction rows with
  | nil =>
    intro donor _
    exact Or.inl ⟨donor, rfl⟩
  | cons p0 rest ih =>
    intro donor hv
    obtain ⟨r, v⟩ := p0
    obtain ⟨cd, hcd⟩ := isOk_exists (hv (r, v) (List.mem_cons_self (r, v) rest))
    have hv' : ∀ p ∈ rest, (get_donor_id p.1).isOk = true :=
      fun p hp => hv p (List.mem_cons_of_mem (r, v) hp)
    cases donor with
    | none =>
      have hstep : check_excel_filenames_go ((r, v) :: rest) none =
          check_excel_filenames_go rest (some cd) := by
        simp [check_excel_filenames_go, hcd]
      rw [hstep]
      exact ih (some cd) hv'
    | some d0 =>
      by_cases hne : d0 = cd
      · subst hne
        have hstep : check_excel_filenames_go ((r, v) :: rest) (some d0) =
            check_excel_filenames_go rest (some d0) := by
          simp [check_excel_filenames_go, hcd]
        rw [hstep]
        exact ih (some d0) hv'
      · right
        refine ⟨v, ?_⟩
        simp [check_excel_filenames_go, hcd, hne]

/-- When every row resolves to the same donor id, the scan succeeds with it. -/
theorem excel_go_const :
    ∀ (rows : List (String × String)) (dr : String),
      (∀ p ∈ rows, get_donor_id p.1 = .ok dr) →
      check_excel_filenames_go rows (some dr) = .ok (some dr) := by
  intro rows
  induction rows with
  | nil => intro dr _; rfl
  | cons p0 rest ih =>
    intro dr hall
    obtain ⟨r, v⟩ := p0
    have hr : get_donor_id r = .ok dr := hall (r, v) (List.mem_cons_self (r, v) rest)
    have hrest := ih dr (fun p hp => hall p (List.mem_cons_of_mem (r, v) hp))
    simp [check_excel_filenames_go, hr, hrest]

theorem excel_const_donor (rows : List (String × String)) (dr : String)
    (hne : ¬ rows = []) (hall : ∀ p ∈ rows, get_donor_id p.1 = .ok dr) :
    check_excel_filenames rows = .ok (some dr) := by
  cases rows with
  | nil => exact absurd rfl hne
  | cons p0 rest =>
    obtain ⟨r, v⟩ := p0
    have hr : get_donor_id r = .ok dr := hall (r, v) (List.mem_cons_self (r, v) rest)
    have hrest := excel_go_const rest dr
      (fun p hp => hall p (List.mem_cons_of_mem (r, v) hp))
    simp [check_excel_filenames, check_excel_filenames_go, hr, hrest]

/-! ## Miscellaneous support lemmas -/

theorem pyZfill_length (cs : List Char) (w : Nat) : w ≤ (pyZfill cs w).length := by
  cases cs with
  | nil =>
    simp only [pyZfill]
    split_ifs with h
    · simpa using h
    · simp
  | cons c rest =>
    simp only [pyZfill]
    split_ifs with h hs
    · exact h
    · simp only [List.length_cons, ge_iff_le, not_le] at h
      simp only [List.length_cons, List.length_append, List.length_replicate]
      omega
    · simp only [List.length_cons, ge_iff_le, not_le] at h
      simp only [List.length_append, List.length_replicate, List.length_cons]
      omega

theorem lookup_mem {α β : Type} [BEq α] [LawfulBEq α] {k : α} {v : β} :
    ∀ {l : List (α × β)}, List.lookup k l = some v → (k, v) ∈ l := by
  intro l
  induction l with
  | nil => intro h; simp [List.lookup] at h
  | cons p rest ih =>
    obtain ⟨pk, pv⟩ := p
    intro h
    simp only [List.lookup] at h
    by_cases hb : (k == pk) = true
    · rw [hb] at h
      have hk : k = pk := eq_of_beq hb
      have hv : pv = v := Option.some.inj h
      subst hk
      rw [← hv]
      exact List.mem_cons_self _ _
    · have hf : (k == pk) = false := by simpa using hb
      rw [hf] at h
      exact List.mem_cons_of_mem _ (ih h)

/-- `str.upper()` never produces a lower-case `'f'`. -/
theorem pyToUpper_ne_f (c : Char) : ¬ pyToUpper c = 'f' := by
  intro h
  unfold pyToUpper at h
  cases hl : List.lookup c upperMap with
  | none =>
    rw [hl] at h
    simp only [Option.getD_none] at h
    subst h
    exact absurd hl (by decide)
  | some u =>
    rw [hl] at h
    simp only [Option.getD_some] at h
    subst h
    have h2 : ∀ p ∈ upperMap, ¬ p.2 = 'f' := by decide
    exact h2 _ (lookup_mem hl) rfl

/-! ## The range of `get_anatomy` -/

/-- Every long-form label `get_anatomy` can return. -/
def anatomyLongForms : List String :=
  ["Pancreas", "Duodenum", "Lymph node", "Spleen", "Thymus", "Artery",
   "Pancreas - Unsure of orientation", "Head of pancreas",
   "Tail of pancreas", "Body of pancreas",
   "Duodenum - Unsure of orientation", "Duodenum - Distal one third",
   "Duodenum - Mid one third", "Duodenum - Proximal one third",
   "Lymph node - SMA", "Lymph node - Body of pancreas",
   "Lymph node - Head of pancreas", "Lymph node - Mesentery",
   "Lymph node - Tail of pancreas"]

theorem anatomy_dict_leaf (k s : String)
    (h : (k, AnatomyEntry.leaf s) ∈ anatomy_dict) :
    s = "Spleen" ∨ s = "Thymus" ∨ s = "Artery" := by
  simp only [anatomy_dict, List.mem_cons, List.not_mem_nil, or_false,
    Prod.mk.injEq] at h
  rcases h with ⟨-, h⟩ | ⟨-, h⟩ | ⟨-, h⟩ | ⟨-, h⟩ | ⟨-, h⟩ | ⟨-, h⟩
  · cases h
  · cases h
  · cases h
  · exact Or.inl (AnatomyEntry.leaf.inj h)
  · exact Or.inr (Or.inl (AnatomyEntry.leaf.inj h))
  · exact Or.inr (Or.inr (AnatomyEntry.leaf.inj h))

theorem anatomy_dict_table (k : String) (m : List (String × String))
    (h : (k, AnatomyEntry.table m) ∈ anatomy_dict) :
    (k = "pancreas" ∨ k = "duodenum" ∨ k = "LN") ∧
      ∀ p ∈ m, p.2 ∈ anatomyLongForms := by
  simp only [anatomy_dict, List.mem_cons, List.not_mem_nil, or_false,
    Prod.mk.injEq] at h
  rcases h with ⟨hk, h⟩ | ⟨hk, h⟩ | ⟨hk, h⟩ | ⟨hk, h⟩ | ⟨hk, h⟩ | ⟨hk, h⟩
  · refine ⟨Or.inl hk, ?_⟩
    rw [AnatomyEntry.table.inj h]
    decide
  · refine ⟨Or.inr (Or.inl hk), ?_⟩
    rw [AnatomyEntry.table.inj h]
    decide
  · refine ⟨Or.inr (Or.inr hk), ?_⟩
    rw [AnatomyEntry.table.inj h]
    decide
  · cases h
  · cases h
  · cases h

/-- Everything `get_anatomy` successfully returns is one of the fixed
long-form labels. -/
theorem get_anatomy_range (v a : String) (h : get_anatomy v = .ok a) :
    a ∈ anatomyLongForms := by
  unfold get_anatomy at h
  split at h
  · -- one keyword
    split at h
    · exact absurd h (by simp)
    · next entry hlook =>
      split_ifs at h with h1 h2 h3
      · rw [← Except.ok.inj h]; decide
      · rw [← Except.ok.inj h]; decide
      · rw [← Except.ok.inj h]; decide
      · split at h
        · next s =>
          rcases anatomy_dict_leaf _ s (lookup_mem hlook) with rfl | rfl | rfl <;>
            (rw [← Except.ok.inj h]; decide)
        · next m =>
          rcases (anatomy_dict_table _ m (lookup_mem hlook)).1 with hk | hk | hk <;>
            simp_all
  · -- two keywords
    split at h
    · exact absurd h (by simp)
    · next m hlook =>
      split at h
      · next v0 hlook2 =>
        have := (anatomy_dict_table _ m (lookup_mem hlook)).2 _ (lookup_mem hlook2)
        rw [← Except.ok.inj h]
        exact this
      · exact absurd h (by simp)
    · exact absurd h (by simp)
  · exact absurd h (by simp)

set_option maxHeartbeats 1600000 in
theorem short_anatomy_of_forms :
    ∀ a ∈ anatomyLongForms, (get_short_anatomy a).isOk = true := by decide

set_option maxHeartbeats 1600000 in
theorem short_anatomy_lymph_first :
    ∀ a ∈ anatomyLongForms,
      pyContains (a.data.map pyToLower) "lymph node".data = true →
      get_short_anatomy a = .ok "Lymph node" := by decide

example : get_anatomy "pancreas - head" = .ok "Head of pancreas" := by decide
example : get_anatomy "duod proximal" = .ok "Duodenum - Proximal one third" := by decide
example : get_anatomy "LN mesentary" = .ok "Lymph node - Mesentery" := by decide
example : get_anatomy "ln mesentary" = .error (.keywordsMismatch "ln mesentary") := by decide
example : get_anatomy "spleen thymus" = .error .typeError := by decide
example : get_anatomy "spleen" = .ok "Spleen" := by decide
example : get_anatomy "LN" = .ok "Lymph node" := by decide
example : get_anatomy "duodenum" = .ok "Duodenum" := by decide
example : get_anatomy "pancreas" = .error (.keywordsMismatch "pancreas") := by decide
example : get_short_anatomy "Lymph node - Head of pancreas" = .ok "Lymph node" := by decide

example : get_filename_key "HPAP 019_pancreas head.ndpi" true = .ok "HPAP019_pancreashead" := by decide
example : get_filename_key "notes.txt" true = .error (.invalidFilename "notes.txt") := by decide
example : get_donor_id "HPAP19_foo" = .ok "019" := by decide
example : get_donor_id "abc_def" = .error .indexError := by decide
example : rename_stain " oct " = "OCT-flash-frozen" := by decide
example : rename_stain "Vanderbilt fixed" = "OCT-lightly-fixed" := by decide
example : rename_stain "ffpe" = "FFPE" := by decide

/-! # The claims -/

instance : DecidablePred imgValid := fun _ =>
  inferInstanceAs (Decidable (_ ∧ _))

/-- C1 (code_bug evidence): `match_excel_to_images` raises an uncaught
`TypeError` even on a perfectly matched one-row, one-file batch, because its
membership tests call the dict objects (`ik not in excel_dict()`,
`xk not in img_dict()`); no failure report is produced and no mapping is
ever built, contradicting the spec's matched-batch/bijection contract. -/
theorem c1_matcher_typeerror_on_matched_batch :
    match_excel_to_images [("HPAP19_spleen", ⟨"HPAP 19_spleen", "OCT"⟩)]
      [("HPAP19_spleen", "HPAP19_spleen.ndpi")] = .error .typeError := by
  decide

/-- C2 (code_bug evidence): the anatomy text `"spleen thymus"` matches two
bare site-pattern families (two keywords in total), so by the claim it must
fail with the logged `UnclassifiedAnatomy` exit naming the text; instead
`anatomy_dict['spleen']['thymus']` subscripts the string `'Spleen'` and
raises a `TypeError` that the `except KeyError` clause does not catch. -/
theorem c2_two_bare_sites_uncaught_typeerror :
    get_anatomy "spleen thymus" = .error .typeError := by decide

/-- C3 counterexample: two matched records that tie on the whole sort key
(same long anatomy, same stain, image-id blank/`'NA'` as in the new Excel
format) receive their `_1`/`_2` suffixes in arrival order: the same record
set, presented in the two orders, maps file `a.ndpi` to `..._1.ndpi` in one
run and to `..._2.ndpi` in the other, so the claim's order-independence
fails as stated. -/
theorem c3_allocator_order_dependent_on_tied_keys :
    map_src_to_dest_alloc
        [⟨"019", "Spleen", "FFPE", "NA", "a.ndpi", "Spleen"⟩,
         ⟨"019", "Spleen", "FFPE", "NA", "b.ndpi", "Spleen"⟩] =
      [("a.ndpi", "Spleen", "019_Histology_Spleen_FFPE_H-and-E_1.ndpi"),
       ("b.ndpi", "Spleen", "019_Histology_Spleen_FFPE_H-and-E_2.ndpi")] ∧
    map_src_to_dest_alloc
        [⟨"019", "Spleen", "FFPE", "NA", "b.ndpi", "Spleen"⟩,
         ⟨"019", "Spleen", "FFPE", "NA", "a.ndpi", "Spleen"⟩] =
      [("a.ndpi", "Spleen", "019_Histology_Spleen_FFPE_H-and-E_2.ndpi"),
       ("b.ndpi", "Spleen", "019_Histology_Spleen_FFPE_H-and-E_1.ndpi")] := by
  decide

/-- C3 (amended): starting from a fresh batch (empty counters), the
allocator's output — the whole `(filepath, directory, destination name)`
table — is identical for any two arrival orders of the same matched-record
set, PROVIDED the records' sort keys (long anatomy, normalized stain, raw
image-id) are pairwise distinct, e.g. whenever the raw image-ids are unique;
each suffix then depends only on the fixed sort key and the
per-(donor, anatomy, stain) counter that starts at 1 and increments by 1. -/
theorem c3_allocator_deterministic_on_distinct_keys
    (l1 l2 : List HistRecord) (hp : l1.Perm l2)
    (hpw : l1.Pairwise (fun a b => ¬ sortKey a = sortKey b)) :
    map_src_to_dest_alloc l1 = map_src_to_dest_alloc l2 := by
  unfold map_src_to_dest_alloc
  rw [insertionSort_eq_of_perm hp hpw]

/-- C3 witness: the determinism theorem applied to a concrete two-record
set with distinct image-ids, in its two arrival orders. -/
theorem c3_allocator_deterministic_witness :
    map_src_to_dest_alloc
        [⟨"019", "Spleen", "FFPE", "7", "a.ndpi", "Spleen"⟩,
         ⟨"019", "Spleen", "FFPE", "8", "b.ndpi", "Spleen"⟩] =
      map_src_to_dest_alloc
        [⟨"019", "Spleen", "FFPE", "8", "b.ndpi", "Spleen"⟩,
         ⟨"019", "Spleen", "FFPE", "7", "a.ndpi", "Spleen"⟩] :=
  c3_allocator_deterministic_on_distinct_keys _ _
    (List.Perm.swap _ _ _) (by decide)

/-- C4 counterexample: the already-lower-cased anatomy text `"ln mesentary"`
does NOT classify successfully — the `(LN)` pattern is case-sensitive
upper-case, so no pattern family matches and `get_anatomy` exits fatally
with zero keywords, refuting Scenario C as stated. -/
theorem c4_lowercase_ln_rejected :
    get_anatomy "ln mesentary" = .error (.keywordsMismatch "ln mesentary") := by
  decide

/-- C4 (amended): with the upper-case site keyword that the extraction
pipeline actually preserves, `"LN mesentary"` classifies to the long form
`'Lymph node - Mesentery'`, which hyphenates to `Lymph-node-Mesentery` for
the destination name and derives the short form `Lymph node`. -/
theorem c4_uppercase_ln_scenario_c :
    get_anatomy "LN mesentary" = .ok "Lymph node - Mesentery" ∧
      hyphenate "Lymph node - Mesentery" = "Lymph-node-Mesentery" ∧
      get_short_anatomy "Lymph node - Mesentery" = .ok "Lymph node" := by
  decide

/-- C5 counterexample: on an input without the `HPAP` token (`"abc_def"`),
`get_donor_id` does not fail with a reported `MalformedKey`-style error exit
— the `split('HPAP')[1]` subscript raises an uncaught `IndexError`. -/
theorem c5_missing_prefix_raises_indexerror :
    get_donor_id "abc_def" = .error .indexError := by decide

/-- C5 (amended): `get_donor_id` splits on the first underscore; when the
`HPAP` token occurs in that first segment, it returns the part after the
first `HPAP` zero-filled to at least 3 characters; when the token is absent
from the first segment it raises an uncaught `IndexError` (not a reported
`MalformedKey`-style error). -/
theorem c5_donor_resolver_behaviour :
    ∀ s : String,
      (∀ part, ((pySplit "HPAP".data
            (s.data.takeWhile (fun c => c != '_'))).get? 1) = some part →
        get_donor_id s = .ok (String.mk (pyZfill part 3)) ∧
          3 ≤ (String.mk (pyZfill part 3)).data.length)
      ∧ (((pySplit "HPAP".data
            (s.data.takeWhile (fun c => c != '_'))).get? 1) = none →
        get_donor_id s = .error .indexError) := by
  intro s
  constructor
  · intro part hp
    refine ⟨?_, pyZfill_length part 3⟩
    simp only [get_donor_id]
    rw [hp]
  · intro hn
    simp only [get_donor_id]
    rw [hn]

/-- C5 witness: the resolver applied to `"HPAP19_foo"`: the first segment is
`HPAP19`, the part after `HPAP` is `19`, zero-filled to `019`. -/
theorem c5_donor_resolver_witness :
    get_donor_id "HPAP19_foo" = .ok (String.mk (pyZfill "19".data 3)) ∧
      3 ≤ (String.mk (pyZfill "19".data 3)).data.length :=
  (c5_donor_resolver_behaviour "HPAP19_foo").1 "19".data (by decide)

/-- C6: a batch containing two keys with different resolved donor ids always
aborts, whichever item comes first.  Part 1: any image-file list whose
(extractable, duplicate-free) keys resolve two different donors makes
`check_img_filenames` exit with the inconsistent-donor error.  Part 2: the
same for the spreadsheet rows in `check_excel_filenames`.  Part 3: when all
rows resolve one donor and the image files another, the cross-check of
`read_excel` exits with the Excel/image donor mismatch.  Each statement
quantifies over every input list, hence over every processing order. -/
theorem c6_donor_mismatch_always_fatal :
    (∀ files : List String,
      (∀ fn ∈ files, imgValid fn) →
      (files.map fileKey).Nodup →
      (∃ a ∈ files, ∃ b ∈ files, ¬ fileDonor a = fileDonor b) →
      ∃ fn, check_img_filenames files = .error (.inconsistentDonor fn))
    ∧ (∀ rows : List (String × String),
      (∀ p ∈ rows, (get_donor_id p.1).isOk = true) →
      (∃ a ∈ rows, ∃ b ∈ rows, ¬ rowDonor a = rowDonor b) →
      ∃ v, check_excel_filenames rows = .error (.inconsistentDonor v))
    ∧ (∀ (rows : List (String × String)) (dr df : String),
      ¬ rows = [] →
      (∀ p ∈ rows, get_donor_id p.1 = .ok dr) →
      ¬ dr = df →
      read_excel_donor_check rows df =
        .error (.excelDonorMismatch (some dr) df)) := by
  refine ⟨?_, ?_, ?_⟩
  · intro files hv hnd hdiff
    rcases img_go_shape files none [] hv hnd
        (fun fn _ => rfl) with ⟨⟨d, m⟩, hok⟩ | herr
    · exfalso
      obtain ⟨a, ha, b, hb, hne⟩ := hdiff
      obtain ⟨ka, da, hka, hda, hd⟩ := img_go_ok_donors files none [] d m hok a ha
      obtain ⟨kb, db, hkb, hdb, hd'⟩ := img_go_ok_donors files none [] d m hok b hb
      have hab : da = db := Option.some.inj (hd ▸ hd')
      rw [fileDonor_eq a ka da hka hda, fileDonor_eq b kb db hkb hdb] at hne
      exact hne hab
    · exact herr
  · intro rows hv hdiff
    rcases excel_go_shape rows none hv with ⟨d, hok⟩ | herr
    · exfalso
      obtain ⟨a, ha, b, hb, hne⟩ := hdiff
      obtain ⟨da, hda, hd⟩ := excel_go_ok_donors rows none d hok a ha
      obtain ⟨db, hdb, hd'⟩ := excel_go_ok_donors rows none d hok b hb
      have hab : da = db := Option.some.inj (hd ▸ hd')
      rw [rowDonor_eq a da hda, rowDonor_eq b db hdb] at hne
      exact hne hab
    · exact herr
  · intro rows dr df hne hall hnedf
    have hok := excel_const_donor rows dr hne hall
    simp only [read_excel_donor_check, hok]
    rw [if_pos]
    intro hc
    exact hnedf (Option.some.inj hc)

/-- C6 witness: concrete two-donor batches for all three parts.  Image files
`HPAP1_a.ndpi`/`HPAP2_b.ndpi` resolve donors `001`/`002`; rows keyed
`HPAP1_x`/`HPAP2_y` do the same; and a one-row Excel donor `001` against
image donor `002` trips the cross-check. -/
theorem c6_donor_mismatch_witness :
    (∃ fn, check_img_filenames ["HPAP1_a.ndpi", "HPAP2_b.ndpi"] =
      .error (.inconsistentDonor fn)) ∧
    (∃ v, check_excel_filenames [("HPAP1_x", "HPAP 1 x"), ("HPAP2_y", "HPAP 2 y")] =
      .error (.inconsistentDonor v)) ∧
    read_excel_donor_check [("HPAP1_x", "HPAP 1 x")] "002" =
      .error (.excelDonorMismatch (some "001") "002") :=
  ⟨c6_donor_mismatch_always_fatal.1 ["HPAP1_a.ndpi", "HPAP2_b.ndpi"]
      (by decide) (by decide) (by decide),
   c6_donor_mismatch_always_fatal.2.1 [("HPAP1_x", "HPAP 1 x"), ("HPAP2_y", "HPAP 2 y")]
      (by decide) (by decide),
   c6_donor_mismatch_always_fatal.2.2 [("HPAP1_x", "HPAP 1 x")] "001" "002"
      (by decide) (by decide) (by decide)⟩

/-- C7: `rename_stain` upper-cases and trims its input; it returns
`OCT-flash-frozen` exactly when that result is `"OCT"` (the upper-cased
result can never itself be the mixed-case string `OCT-flash-frozen`),
returns `OCT-lightly-fixed` whenever the result contains `"VAN"`, and
otherwise passes the upper-cased trimmed string through unchanged; it is a
total function with no failure path. -/
theorem c7_stain_normalizer_total :
    ∀ s : String,
      (rename_stain s = "OCT-flash-frozen" ↔
        String.mk ((pyStrip s.data).map pyToUpper) = "OCT")
      ∧ (pyContains ((pyStrip s.data).map pyToUpper) "VAN".data = true →
        rename_stain s = "OCT-lightly-fixed")
      ∧ (¬ String.mk ((pyStrip s.data).map pyToUpper) = "OCT" →
        pyContains ((pyStrip s.data).map pyToUpper) "VAN".data = false →
        rename_stain s = String.mk ((pyStrip s.data).map pyToUpper)) := by
  intro s
  have hmain : rename_stain s =
      (if String.mk ((pyStrip s.data).map pyToUpper) = "OCT"
        then "OCT-flash-frozen"
        else if pyContains ((pyStrip s.data).map pyToUpper) "VAN".data
          then "OCT-lightly-fixed"
          else String.mk ((pyStrip s.data).map pyToUpper)) := rfl
  refine ⟨⟨?_, ?_⟩, ?_, ?_⟩
  · intro hr
    by_contra h1
    rw [hmain, if_neg h1] at hr
    by_cases h2 : pyContains ((pyStrip s.data).map pyToUpper) "VAN".data = true
    · rw [if_pos h2] at hr
      exact absurd hr (by decide)
    · rw [if_neg h2] at hr
      have hd : (pyStrip s.data).map pyToUpper = "OCT-flash-frozen".data :=
        congrArg String.data hr
      have hf : 'f' ∈ (pyStrip s.data).map pyToUpper := by
        rw [hd]
        decide
      obtain ⟨c, -, hc⟩ := List.mem_map.1 hf
      exact pyToUpper_ne_f c hc
  · intro h1
    rw [hmain, if_pos h1]
  · intro h2
    rw [hmain]
    by_cases h1 : String.mk ((pyStrip s.data).map pyToUpper) = "OCT"
    · exfalso
      have hd1 : (pyStrip s.data).map pyToUpper = "OCT".data :=
        congrArg String.data h1
      rw [hd1] at h2
      exact absurd h2 (by decide)
    · rw [if_neg h1, if_pos h2]
  · intro h1 h2
    rw [hmain, if_neg h1, if_neg (by rw [h2]; exact Bool.false_ne_true)]

/-- C7 witness: the three ordered rules at concrete inputs — `" oct "`
normalizes to the flash-frozen label, a Vanderbilt marker to lightly-fixed,
and an unknown label passes through upper-cased. -/
theorem c7_stain_normalizer_witness :
    rename_stain " oct " = "OCT-flash-frozen" ∧
      rename_stain "Vanderbilt" = "OCT-lightly-fixed" ∧
      rename_stain "ffpe" = String.mk ((pyStrip "ffpe".data).map pyToUpper) :=
  ⟨(c7_stain_normalizer_total " oct ").1.mpr (by decide),
   (c7_stain_normalizer_total "Vanderbilt").2.1 (by decide),
   (c7_stain_normalizer_total "ffpe").2.2 (by decide) (by decide)⟩

/-- C8: every key the strict extractor returns contains only `_`, `-`,
letters and digits, and re-extracting it (under either extension mode)
returns it unchanged; every key of the spec-modelled loose extractor
contains only digits and `_`, and re-extracting it returns it unchanged. -/
theorem c8_key_extraction_class_and_idempotent :
    (∀ (s : String) (b : Bool) (k : String), get_filename_key s b = .ok k →
      (∀ c ∈ k.data, keyChar c = true) ∧
        ∀ b2, get_filename_key k b2 = .ok k)
    ∧ (∀ s k : String, get_filename_key_loose s = .ok k →
      (∀ c ∈ k.data, (c = '_' || c.isDigit) = true) ∧
        get_filename_key_loose k = .ok k) := by
  constructor
  · intro s b k h
    obtain ⟨hk, -, -⟩ := get_filename_key_ok s b k h
    refine ⟨?_, fun b2 => get_filename_key_idem s b b2 k h⟩
    rw [hk]
    exact filterKey_class _
  · intro s k h
    obtain ⟨hk, -⟩ := get_filename_key_loose_ok s k h
    refine ⟨?_, get_filename_key_loose_idem s k h⟩
    intro c hc
    rw [hk] at hc
    exact (List.mem_filter.1 hc).2

/-- C8 witness: strict extraction of `"HPAP 19_a.ndpi"` (key `HPAP19_a`) and
loose extraction of `"HPAP 19_4"` (key `19_4`), each with its character
class and fixed-point re-extraction. -/
theorem c8_key_extraction_witness :
    (∀ c ∈ ("HPAP19_a" : String).data, keyChar c = true) ∧
      get_filename_key "HPAP19_a" true = .ok "HPAP19_a" ∧
      (∀ c ∈ ("19_4" : String).data, (c = '_' || c.isDigit) = true) ∧
      get_filename_key_loose "19_4" = .ok "19_4" :=
  ⟨(c8_key_extraction_class_and_idempotent.1 "HPAP 19_a.ndpi" true "HPAP19_a"
      (by decide)).1,
   (c8_key_extraction_class_and_idempotent.1 "HPAP 19_a.ndpi" true "HPAP19_a"
      (by decide)).2 true,
   (c8_key_extraction_class_and_idempotent.2 "HPAP 19_4" "19_4" (by decide)).1,
   (c8_key_extraction_class_and_idempotent.2 "HPAP 19_4" "19_4" (by decide)).2⟩

/-- C9: the donor-prefix requirement is enforced on every key extraction,
image files included.  Part 1: whenever the filtered key of a raw string is
empty or lacks the `HPAP` prefix, `get_filename_key` exits fatally.  Part 2:
consequently, every key in the filename map a successful
`check_img_filenames` hands to the matching stage is non-empty and
`HPAP`-prefixed — a file named without the prefix can never reach matching. -/
theorem c9_hpap_prefix_enforced_for_files :
    (∀ (s : String) (b : Bool),
      (filterKey (if b then rsplitStem s else s) = "" ∨
        ¬ pyStartswith (filterKey (if b then rsplitStem s else s)) "HPAP" = true) →
      get_filename_key s b = .error (.invalidFilename s))
    ∧ (∀ (files : List String) (d : Option String) (m : List (String × String)),
      check_img_filenames files = .ok (d, m) →
      ∀ p ∈ m, ¬ p.1 = "" ∧ pyStartswith p.1 "HPAP" = true) := by
  constructor
  · exact get_filename_key_error
  · intro files d m h
    exact img_go_map_keys files none [] d m h
      (fun p hp => absurd hp (List.not_mem_nil p))

/-- C9 witness: `"foo.ndpi"` (no HPAP prefix) is rejected fatally, and the
map of the successful one-file batch `["HPAP1_a.ndpi"]` carries only the
non-empty `HPAP`-prefixed key `HPAP1_a`. -/
theorem c9_hpap_prefix_witness :
    get_filename_key "foo.ndpi" true = .error (.invalidFilename "foo.ndpi") ∧
      ∀ p ∈ [("HPAP1_a", "HPAP1_a.ndpi")],
        ¬ (p : String × String).1 = "" ∧ pyStartswith p.1 "HPAP" = true :=
  ⟨c9_hpap_prefix_enforced_for_files.1 "foo.ndpi" true (by decide),
   c9_hpap_prefix_enforced_for_files.2 ["HPAP1_a.ndpi"] (some "001")
     [("HPAP1_a", "HPAP1_a.ndpi")] (by decide)⟩

/-- C10: `get_short_anatomy` tests `'lymph node'` before `'pancreas'`, so
every label the classifier produces that mentions lymph node (in particular
the compound `'Lymph node - Head of pancreas'`) derives short form
`Lymph node`, never `Pancreas`; and every label the classifier can produce
derives some short form without reaching the fatal no-match branch. -/
theorem c10_short_anatomy_priority_and_total :
    (∀ v a, get_anatomy v = .ok a → (get_short_anatomy a).isOk = true)
    ∧ (∀ v a, get_anatomy v = .ok a →
      pyContains (a.data.map pyToLower) "lymph node".data = true →
      get_short_anatomy a = .ok "Lymph node")
    ∧ get_short_anatomy "Lymph node - Head of pancreas" = .ok "Lymph node" := by
  refine ⟨?_, ?_, by decide⟩
  · intro v a h
    exact short_anatomy_of_forms a (get_anatomy_range v a h)
  · intro v a h hl
    exact short_anatomy_lymph_first a (get_anatomy_range v a h) hl

/-- C10 witness: the anatomy text `"LN head"` classifies to the compound
label `'Lymph node - Head of pancreas'`, whose short form is total and is
`Lymph node`, not `Pancreas`. -/
theorem c10_short_anatomy_witness :
    (get_short_anatomy "Lymph node - Head of pancreas").isOk = true ∧
      get_short_anatomy "Lymph node - Head of pancreas" = .ok "Lymph node" :=
  ⟨c10_short_anatomy_priority_and_total.1 "LN head"
      "Lymph node - Head of pancreas" (by decide),
   c10_short_anatomy_priority_and_total.2.1 "LN head"
      "Lymph node - Head of pancreas" (by decide) (by decide)⟩
